import Mathlib

/-!
Shallow embedding of the planet membership and authorization subsystem of the
TravelSpace server (src/src/planet/planet.service.ts and the kick endpoint of
the planet controller).  The relational store is modelled as lists of rows,
each Prisma call as the corresponding list operation, and every thrown
exception as an explicit error value.  Operations return the store visible
after the call together with the call's result; a `prisma.$transaction` block
rolls the store back to its pre-call state when a step inside it fails, while
writes outside any transaction stay visible even when a later statement
throws.  The two injectable failure flags model an infrastructure error of a
single database statement (`failMembershipInsert` in `createPlanet`,
`failPlanetDelete` in `deletePlanet`).
-/

namespace TravelSpace

/-- MembershipStatus enum from planet.service.ts. -/
inductive MembershipStatus where
  | PENDING
  | APPROVED
  | REJECTED
deriving DecidableEq

/-- PlanetMemberRole enum from the Prisma client. -/
inductive PlanetMemberRole where
  | OWNER
  | ADMIN
  | MEMBER
deriving DecidableEq

/-- A row of the Planet table: id, owner reference and the dto attributes the
claims mention (a display name and the published visibility flag). -/
structure Planet where
  id : Nat
  ownerId : Nat
  pname : String
  published : Bool
deriving DecidableEq

/-- A row of the PlanetMembership table, keyed by (planetId, userId). -/
structure Membership where
  planetId : Nat
  userId : Nat
  status : MembershipStatus
  role : PlanetMemberRole
deriving DecidableEq

/-- A row of the Article table (only the planet reference matters here). -/
structure Article where
  id : Nat
  planetId : Nat
deriving DecidableEq

/-- Thrown exceptions: the three Nest exception kinds used by the service,
plus `Internal` for a plain `new Error`, `DbRecordNotFound` for Prisma's
P2025 (update of a missing row) and `DbError` for an injected infrastructure
failure of a single statement. -/
inductive DomainError where
  | NotFound (msg : String)
  | Forbidden (msg : String)
  | Conflict (msg : String)
  | Internal (msg : String)
  | DbRecordNotFound
  | DbError
deriving DecidableEq

/-- The relational store: the three tables the claims are about, plus the
autoincrement counter feeding Planet.id. -/
structure Store where
  planets : List Planet
  memberships : List Membership
  articles : List Article
  nextPlanetId : Nat
deriving DecidableEq

def emptyStore : Store := ⟨[], [], [], 1⟩

/-- prisma.planet.findUnique on id. -/
def findPlanet (s : Store) (planetId : Nat) : Option Planet :=
  s.planets.find? fun p => p.id == planetId

/-- prisma.planetMembership.findUnique on the composite key planetId_userId. -/
def findMembership (s : Store) (userId planetId : Nat) : Option Membership :=
  s.memberships.find? fun m => m.planetId == planetId && m.userId == userId

/-- prisma.planetMembership.update of the status field at a composite key. -/
def updateMembershipStatus (l : List Membership) (planetId userId : Nat)
    (st : MembershipStatus) : List Membership :=
  l.map fun m =>
    ⟨m.planetId, m.userId,
     if m.planetId == planetId && m.userId == userId then st else m.status, m.role⟩

/-- prisma.planetMembership.update of the role field at a composite key. -/
def updateMembershipRole (l : List Membership) (planetId userId : Nat)
    (r : PlanetMemberRole) : List Membership :=
  l.map fun m =>
    ⟨m.planetId, m.userId, m.status,
     if m.planetId == planetId && m.userId == userId then r else m.role⟩

/-- PlanetService.createPlanet: inserts the Planet row, then — outside any
transaction — inserts the creator's OWNER/APPROVED membership.
`failMembershipInsert` injects a failure of the second insert. -/
def createPlanet (pname : String) (published : Bool) (userId : Nat)
    (failMembershipInsert : Bool) (s : Store) : Store × Except DomainError Planet :=
  let newPlanet : Planet := ⟨s.nextPlanetId, userId, pname, published⟩
  let s1 : Store := { s with planets := s.planets ++ [newPlanet],
                             nextPlanetId := s.nextPlanetId + 1 }
  if failMembershipInsert then
    (s1, .error .DbError)
  else
    let m : Membership := ⟨newPlanet.id, userId, .APPROVED, .OWNER⟩
    ({ s1 with memberships := s1.memberships ++ [m] }, .ok newPlanet)

/-- PlanetService.updatePlanet: planet lookup (NotFound), then the
admin-or-owner check (Forbidden), then the partial update (here: the name). -/
def updatePlanet (planetId userId : Nat) (newName : Option String) (s : Store) :
    Store × Except DomainError Planet :=
  match findPlanet s planetId with
  | none => (s, .error (.NotFound "행성을 찾을 수 없습니다."))
  | some planet =>
    match findMembership s userId planetId with
    | none => (s, .error (.Forbidden "관리자 또는 행성 주인만 업데이트 할 수 있습니다."))
    | some membership =>
      if membership.role ≠ PlanetMemberRole.ADMIN ∧ planet.ownerId ≠ userId then
        (s, .error (.Forbidden "관리자 또는 행성 주인만 업데이트 할 수 있습니다."))
      else
        ({ s with planets := s.planets.map fun q =>
            ⟨q.id, q.ownerId, if q.id == planetId then newName.getD q.pname else q.pname,
             q.published⟩ },
         .ok ⟨planet.id, planet.ownerId, newName.getD planet.pname, planet.published⟩)

/-- PlanetService.deletePlanet: planet lookup (NotFound), owner-or-superuser
check (Forbidden), then a `$transaction` deleting the planet's articles and
the planet row.  `failPlanetDelete` injects a failure of the final delete;
the transaction then rolls back both deletions. -/
def deletePlanet (planetId userId : Nat) (isAdmin : Bool) (failPlanetDelete : Bool)
    (s : Store) : Store × Except DomainError Planet :=
  match findPlanet s planetId with
  | none => (s, .error (.NotFound "행성을 찾을 수 없습니다."))
  | some planet =>
    if ¬ isAdmin = true ∧ planet.ownerId ≠ userId then
      (s, .error (.Forbidden "행성 주인만 삭제할 수 있습니다."))
    else
      if failPlanetDelete then
        (s, .error .DbError)
      else
        ({ s with articles := s.articles.filter fun a => !(a.planetId == planetId),
                  planets := s.planets.filter fun p => !(p.id == planetId) },
         .ok planet)

/-- PlanetService.joinPlanet: existing-membership check first (Forbidden with
a status-specific message), then planet lookup (NotFound), then creation of a
PENDING/MEMBER membership, returning the PENDING status. -/
def joinPlanet (userId planetId : Nat) (s : Store) :
    Store × Except DomainError MembershipStatus :=
  match findMembership s userId planetId with
  | some existingMembership =>
    if existingMembership.status = MembershipStatus.APPROVED then
      (s, .error (.Forbidden "이미 행성의 회원입니다."))
    else if existingMembership.status = MembershipStatus.PENDING then
      (s, .error (.Forbidden "이미 가입 신청을 하셨습니다. 승인을 기다려주세요."))
    else
      (s, .error (.Forbidden "이전의 가입 신청이 거절되었습니다."))
  | none =>
    match findPlanet s planetId with
    | none => (s, .error (.NotFound "행성을 찾을 수 없습니다."))
    | some _ =>
      ({ s with memberships := s.memberships ++ [⟨planetId, userId, .PENDING, .MEMBER⟩] },
       .ok .PENDING)

/-- PlanetService.handleApplication: requester-role check (Forbidden), target
membership must exist with status PENDING (NotFound otherwise), then the
status update followed by the switch on the action. -/
def handleApplication (adminUserId targetUserId planetId : Nat)
    (action : MembershipStatus) (s : Store) : Store × Except DomainError String :=
  match findMembership s adminUserId planetId with
  | none => (s, .error (.Forbidden "관리자나 주인만 승인/거절을 할 수 있습니다."))
  | some membership =>
    if membership.role ≠ PlanetMemberRole.ADMIN ∧ membership.role ≠ PlanetMemberRole.OWNER then
      (s, .error (.Forbidden "관리자나 주인만 승인/거절을 할 수 있습니다."))
    else
      match findMembership s targetUserId planetId with
      | none => (s, .error (.NotFound "유효하지 않은 가입 신청입니다."))
      | some targetMembership =>
        if targetMembership.status ≠ MembershipStatus.PENDING then
          (s, .error (.NotFound "유효하지 않은 가입 신청입니다."))
        else
          let s1 : Store :=
            { s with memberships := updateMembershipStatus s.memberships planetId targetUserId action }
          match action with
          | .APPROVED => (s1, .ok "가입 신청이 승인되었습니다.")
          | .REJECTED => (s1, .ok "가입 신청이 거절되었습니다.")
          | .PENDING => (s1, .error (.Internal "유효하지 않은 작업입니다."))

/-- PlanetService.approveApplication delegates to handleApplication. -/
def approveApplication (adminUserId targetUserId planetId : Nat) (s : Store) :
    Store × Except DomainError String :=
  handleApplication adminUserId targetUserId planetId .APPROVED s

/-- PlanetService.rejectApplication delegates to handleApplication. -/
def rejectApplication (adminUserId targetUserId planetId : Nat) (s : Store) :
    Store × Except DomainError String :=
  handleApplication adminUserId targetUserId planetId .REJECTED s

/-- PlanetService.leavePlanet: planet lookup (NotFound), owner check
(Forbidden), membership lookup (NotFound), then deletion of the membership. -/
def leavePlanet (userId planetId : Nat) (s : Store) : Store × Except DomainError Unit :=
  match findPlanet s planetId with
  | none => (s, .error (.NotFound "해당 행성을 찾을 수 없습니다."))
  | some planet =>
    if planet.ownerId = userId then
      (s, .error (.Forbidden "행성의 주인은 행성을 탈출할 수 없습니다."))
    else
      match findMembership s userId planetId with
      | none => (s, .error (.NotFound "해당 행성에 가입되어 있지 않습니다."))
      | some _ =>
        ({ s with memberships :=
            s.memberships.filter fun m => !(m.planetId == planetId && m.userId == userId) },
         .ok ())

/-- PlanetService.updateMemberRole: a single combined check throws Forbidden
when the planet is missing or the requester is not its owner, the owner's own
role is immutable, and the role update is a bare prisma update (P2025 when the
target membership does not exist). -/
def updateMemberRole (planetId userId : Nat) (r : PlanetMemberRole)
    (currentUserId : Nat) (s : Store) : Store × Except DomainError String :=
  match findPlanet s planetId with
  | none => (s, .error (.Forbidden "행성의 소유자만 멤버 권한을 수정할 수 있습니다."))
  | some planet =>
    if planet.ownerId ≠ currentUserId then
      (s, .error (.Forbidden "행성의 소유자만 멤버 권한을 수정할 수 있습니다."))
    else if userId = planet.ownerId then
      (s, .error (.Forbidden "행성의 주인의 역할은 수정할 수 없습니다."))
    else
      match findMembership s userId planetId with
      | none => (s, .error .DbRecordNotFound)
      | some _ =>
        ({ s with memberships := updateMembershipRole s.memberships planetId userId r },
         .ok "멤버의 권한이 수정되었습니다.")

/-- PlanetService.transferOwnership: planet lookup (NotFound), current-owner
check (Forbidden), the new owner must hold a membership of any status
(NotFound), then only Planet.ownerId is updated. -/
def transferOwnership (planetId newOwnerId currentOwnerId : Nat) (s : Store) :
    Store × Except DomainError Unit :=
  match findPlanet s planetId with
  | none => (s, .error (.NotFound "해당 행성을 찾을 수 없습니다."))
  | some planet =>
    if planet.ownerId ≠ currentOwnerId then
      (s, .error (.Forbidden "행성의 소유권을 이전할 권한이 없습니다."))
    else
      match findMembership s newOwnerId planetId with
      | none => (s, .error (.NotFound "새 소유자는 행성의 멤버가 아닙니다."))
      | some _ =>
        ({ s with planets := s.planets.map fun q =>
            ⟨q.id, if q.id == planetId then newOwnerId else q.ownerId, q.pname, q.published⟩ },
         .ok ())

/-- PlanetController.kickMember: fetches the requester's membership through
PlanetService.getMembership (NotFound when absent; the included planet row of
a stored membership always exists under the store's foreign-key integrity,
modelled by the DbError fallback), checks the admin-or-owner rule (Forbidden),
then delegates the removal to PlanetService.leavePlanet. -/
def kickMember (currentUserId targetUserId planetId : Nat) (s : Store) :
    Store × Except DomainError String :=
  match findMembership s currentUserId planetId with
  | none => (s, .error (.NotFound "멤버십 정보를 찾을 수 없습니다."))
  | some membership =>
    match findPlanet s planetId with
    | none => (s, .error .DbError)
    | some planet =>
      if membership.role ≠ PlanetMemberRole.ADMIN ∧ planet.ownerId ≠ currentUserId then
        (s, .error (.Forbidden "행성의 관리자 또는 주인만 회원을 추방할 수 있습니다."))
      else
        match leavePlanet targetUserId planetId s with
        | (s1, .ok _) => (s1, .ok "사용자가 행성에서 성공적으로 추방되었습니다.")
        | (s1, .error e) => (s1, .error e)

/-- The service calls a client may issue, for reachability statements. -/
inductive Op where
  | createPlanet (pname : String) (published : Bool) (userId : Nat)
  | joinPlanet (userId planetId : Nat)
  | approveApplication (adminUserId targetUserId planetId : Nat)
  | rejectApplication (adminUserId targetUserId planetId : Nat)
  | leavePlanet (userId planetId : Nat)
  | updateMemberRole (planetId userId : Nat) (r : PlanetMemberRole) (currentUserId : Nat)
  | transferOwnership (planetId newOwnerId currentOwnerId : Nat)
  | deletePlanet (planetId userId : Nat) (isAdmin : Bool)
  | kickMember (currentUserId targetUserId planetId : Nat)

/-- The store visible after one service call (no injected infrastructure
failures), whether the call succeeded or threw. -/
def step (s : Store) : Op → Store
  | .createPlanet pname published userId => (createPlanet pname published userId false s).1
  | .joinPlanet userId planetId => (joinPlanet userId planetId s).1
  | .approveApplication a t planetId => (approveApplication a t planetId s).1
  | .rejectApplication a t planetId => (rejectApplication a t planetId s).1
  | .leavePlanet userId planetId => (leavePlanet userId planetId s).1
  | .updateMemberRole planetId userId r cur => (updateMemberRole planetId userId r cur s).1
  | .transferOwnership planetId newO cur => (transferOwnership planetId newO cur s).1
  | .deletePlanet planetId userId isAdmin => (deletePlanet planetId userId isAdmin false s).1
  | .kickMember cur t planetId => (kickMember cur t planetId s).1

/-- Folding a call sequence from an arbitrary starting store. -/
def runFrom (s : Store) (ops : List Op) : Store := ops.foldl step s

/-- The store reached from the empty store by a call sequence. -/
def run (ops : List Op) : Store := runFrom emptyStore ops

/-- The owner invariant of spec §8: per planet, exactly one OWNER membership,
owned by Planet.ownerId, with status APPROVED. -/
def OwnerInvariant (s : Store) : Prop :=
  ∀ p ∈ s.planets,
    s.memberships.countP (fun m => m.planetId == p.id && decide (m.role = PlanetMemberRole.OWNER)) = 1 ∧
    ∀ m ∈ s.memberships, m.planetId = p.id → m.role = PlanetMemberRole.OWNER →
      m.userId = p.ownerId ∧ m.status = MembershipStatus.APPROVED

instance (s : Store) : Decidable (OwnerInvariant s) := by
  unfold OwnerInvariant
  infer_instance

/-- Two membership rows occupy distinct composite keys. -/
def MemKeyDistinct (a b : Membership) : Prop :=
  ¬(a.planetId = b.planetId ∧ a.userId = b.userId)

/-- The inductive store invariant: id bounds from the autoincrement counter,
key uniqueness of both tables, and the owner-membership invariant. -/
structure Inv (s : Store) : Prop where
  planetIdLt : ∀ p ∈ s.planets, p.id < s.nextPlanetId
  memPidLt : ∀ m ∈ s.memberships, m.planetId < s.nextPlanetId
  planetKeyUnique : s.planets.Pairwise fun a b => a.id ≠ b.id
  memKeyUnique : s.memberships.Pairwise MemKeyDistinct
  ownerMem : ∀ p ∈ s.planets, ∃ m ∈ s.memberships,
      m.planetId = p.id ∧ m.userId = p.ownerId ∧ m.role = PlanetMemberRole.OWNER ∧
      m.status = MembershipStatus.APPROVED
  ownerOnly : ∀ p ∈ s.planets, ∀ m ∈ s.memberships, m.planetId = p.id →
      m.role = PlanetMemberRole.OWNER →
      m.userId = p.ownerId ∧ m.status = MembershipStatus.APPROVED

/-- The status-specific Forbidden message joinPlanet produces when a
membership record already exists. -/
def joinDenyMsg : MembershipStatus → String
  | .APPROVED => "이미 행성의 회원입니다."
  | .PENDING => "이미 가입 신청을 하셨습니다. 승인을 기다려주세요."
  | .REJECTED => "이전의 가입 신청이 거절되었습니다."

/-- The call shapes the amended owner invariant is stated over: everything a
client can issue except ownership transfers and promotions to the OWNER
role. -/
def allowedOp : Op → Bool
  | .transferOwnership _ _ _ => false
  | .updateMemberRole _ _ r _ => decide (r ≠ PlanetMemberRole.OWNER)
  | _ => true

/-- Membership-removal calls: leavePlanet and the kick endpoint delegating to
it. -/
def leaveOrKick : Op → Bool
  | .leavePlanet _ _ => true
  | .kickMember _ _ _ => true
  | _ => false

/-- The call sequence refuting the unrestricted owner invariant: user 1
creates a planet, user 2 joins (PENDING) and receives ownership; ownerId
becomes 2 while the only OWNER membership still belongs to user 1. -/
def c1BadOps : List Op :=
  [.createPlanet "p" true 1, .joinPlanet 2 1, .transferOwnership 1 2 1]

/-- A small concrete store for witnesses: planet 1 owned by user 1, with an
OWNER membership for user 1, a PENDING member 2, an ADMIN 3, a REJECTED
applicant 4 and an APPROVED member 5, plus two articles of the planet. -/
def sW : Store :=
  ⟨[⟨1, 1, "terra", true⟩],
   [⟨1, 1, .APPROVED, .OWNER⟩, ⟨1, 2, .PENDING, .MEMBER⟩, ⟨1, 3, .APPROVED, .ADMIN⟩,
    ⟨1, 4, .REJECTED, .MEMBER⟩, ⟨1, 5, .APPROVED, .MEMBER⟩],
   [⟨1, 1⟩, ⟨2, 1⟩], 2⟩

lemma findPlanet_mem {s : Store} {planetId : Nat} {p : Planet}
    (h : findPlanet s planetId = some p) : p ∈ s.planets ∧ p.id = planetId := by
  refine ⟨List.mem_of_find?_eq_some h, ?_⟩
  have := List.find?_some h
  simpa using this

lemma findPlanet_eq_none {s : Store} {planetId : Nat}
    (h : findPlanet s planetId = none) : ∀ p ∈ s.planets, p.id ≠ planetId := by
  intro p hp
  have := List.find?_eq_none.mp h p hp
  simpa using this

lemma findMembership_mem {s : Store} {userId planetId : Nat} {m : Membership}
    (h : findMembership s userId planetId = some m) :
    m ∈ s.memberships ∧ m.planetId = planetId ∧ m.userId = userId := by
  refine ⟨List.mem_of_find?_eq_some h, ?_⟩
  have := List.find?_some h
  simpa using this

lemma findMembership_eq_none {s : Store} {userId planetId : Nat}
    (h : findMembership s userId planetId = none) :
    ∀ m ∈ s.memberships, ¬(m.planetId = planetId ∧ m.userId = userId) := by
  intro m hm
  have := List.find?_eq_none.mp h m hm
  simpa using this

lemma memKeyDistinct_symm : Symmetric MemKeyDistinct := by
  intro a b hab
  intro hc
  exact hab ⟨hc.1.symm, hc.2.symm⟩

/-- Under key uniqueness, two stored membership rows with the same composite
key are the same row. -/
lemma mem_key_eq {l : List Membership} (hpw : l.Pairwise MemKeyDistinct)
    {m1 m2 : Membership} (h1 : m1 ∈ l) (h2 : m2 ∈ l)
    (hp : m1.planetId = m2.planetId) (hu : m1.userId = m2.userId) : m1 = m2 := by
  by_contra hne
  exact (hpw.forall memKeyDistinct_symm h1 h2 hne) ⟨hp, hu⟩

/-- Under id uniqueness, two stored planet rows with the same id are the same
row. -/
lemma planet_key_eq {l : List Planet} (hpw : l.Pairwise fun a b => a.id ≠ b.id)
    {p1 p2 : Planet} (h1 : p1 ∈ l) (h2 : p2 ∈ l) (hid : p1.id = p2.id) : p1 = p2 := by
  by_contra hne
  exact (hpw.forall (fun a b hab => fun hc => hab hc.symm) h1 h2 hne) hid

/-- A list whose positions satisfying `p` are pairwise impossible to duplicate
and which contains a `p`-element counts exactly one `p`-element. -/
lemma countP_eq_one_of {α : Type} {l : List α} {p : α → Bool}
    (hex : ∃ a ∈ l, p a = true)
    (hpw : l.Pairwise fun a b => ¬(p a = true ∧ p b = true)) :
    l.countP p = 1 := by
  induction l with
  | nil => simp at hex
  | cons hd tl ih =>
    rw [List.countP_cons]
    rcases List.pairwise_cons.mp hpw with ⟨hhd, htl⟩
    by_cases hp : p hd = true
    · have hz : tl.countP p = 0 := by
        rw [List.countP_eq_zero]
        intro b hb hpb
        exact hhd b hb ⟨hp, hpb⟩
      simp [hp, hz]
    · rcases hex with ⟨a, ha, hpa⟩
      rcases List.mem_cons.mp ha with rfl | hatl
      · exact absurd hpa hp
      · have := ih ⟨a, hatl, hpa⟩ htl
        simp [hp, this]

/-- The inductive invariant implies the owner invariant of the spec. -/
lemma inv_ownerInvariant {s : Store} (h : Inv s) : OwnerInvariant s := by
  intro p hp
  constructor
  · apply countP_eq_one_of
    · rcases h.ownerMem p hp with ⟨m, hm, h1, h2, h3, h4⟩
      exact ⟨m, hm, by simp [h1, h3]⟩
    · apply h.memKeyUnique.imp_of_mem
      intro a b ha hb hab
      intro hc
      rcases hc with ⟨hca, hcb⟩
      simp only [Bool.and_eq_true, beq_iff_eq, decide_eq_true_eq] at hca hcb
      have hua := h.ownerOnly p hp a ha hca.1 hca.2
      have hub := h.ownerOnly p hp b hb hcb.1 hcb.2
      exact hab ⟨by rw [hca.1, hcb.1], by rw [hua.1, hub.1]⟩
  · intro m hm h1 h2
    exact h.ownerOnly p hp m hm h1 h2

lemma inv_emptyStore : Inv emptyStore := by
  constructor <;> simp [emptyStore]

/-- Outcome of a successful createPlanet call. -/
lemma createPlanet_run (pname : String) (pub : Bool) (uid : Nat) (s : Store) :
    createPlanet pname pub uid false s =
      ({ s with planets := s.planets ++ [⟨s.nextPlanetId, uid, pname, pub⟩],
                memberships := s.memberships ++ [⟨s.nextPlanetId, uid, .APPROVED, .OWNER⟩],
                nextPlanetId := s.nextPlanetId + 1 },
       .ok ⟨s.nextPlanetId, uid, pname, pub⟩) := rfl

/-- Outcome of a createPlanet call whose membership insert fails: the planet
row stays visible because no transaction wraps the two inserts. -/
lemma createPlanet_fail (pname : String) (pub : Bool) (uid : Nat) (s : Store) :
    createPlanet pname pub uid true s =
      ({ s with planets := s.planets ++ [⟨s.nextPlanetId, uid, pname, pub⟩],
                nextPlanetId := s.nextPlanetId + 1 },
       .error .DbError) := rfl

lemma inv_createPlanet {s : Store} (h : Inv s) (pname : String) (pub : Bool) (uid : Nat) :
    Inv (createPlanet pname pub uid false s).1 := by
  rw [createPlanet_run]
  constructor
  · intro p hp
    rcases List.mem_append.mp hp with hp | hp
    · exact Nat.lt_succ_of_lt (h.planetIdLt p hp)
    · rw [List.mem_singleton.mp hp]
      exact Nat.lt_succ_self _
  · intro m hm
    rcases List.mem_append.mp hm with hm | hm
    · exact Nat.lt_succ_of_lt (h.memPidLt m hm)
    · rw [List.mem_singleton.mp hm]
      exact Nat.lt_succ_self _
  · rw [List.pairwise_append]
    refine ⟨h.planetKeyUnique, List.pairwise_singleton _ _, ?_⟩
    intro a ha b hb
    rw [List.mem_singleton.mp hb]
    exact Nat.ne_of_lt (h.planetIdLt a ha)
  · rw [List.pairwise_append]
    refine ⟨h.memKeyUnique, List.pairwise_singleton _ _, ?_⟩
    intro a ha b hb
    rw [List.mem_singleton.mp hb]
    intro hc
    exact Nat.ne_of_lt (h.memPidLt a ha) hc.1
  · intro p hp
    rcases List.mem_append.mp hp with hp | hp
    · rcases h.ownerMem p hp with ⟨m, hm, hprops⟩
      exact ⟨m, List.mem_append_left _ hm, hprops⟩
    · rw [List.mem_singleton.mp hp]
      exact ⟨⟨s.nextPlanetId, uid, .APPROVED, .OWNER⟩,
        List.mem_append_right _ (List.mem_singleton_self _), rfl, rfl, rfl, rfl⟩
  · intro p hp m hm h1 h2
    rcases List.mem_append.mp hp with hp | hp
    · rcases List.mem_append.mp hm with hm | hm
      · exact h.ownerOnly p hp m hm h1 h2
      · rw [List.mem_singleton.mp hm] at h1
        have h1' : s.nextPlanetId = p.id := h1
        exact absurd h1'.symm (Nat.ne_of_lt (h.planetIdLt p hp))
    · rw [List.mem_singleton.mp hp] at h1 ⊢
      rcases List.mem_append.mp hm with hm | hm
      · exact absurd h1 (Nat.ne_of_lt (h.memPidLt m hm))
      · rw [List.mem_singleton.mp hm]
        exact ⟨rfl, rfl⟩

/-- joinPlanet denies, with the status-specific message, whenever a record
exists at the composite key. -/
lemma joinPlanet_existing {s : Store} {userId planetId : Nat} {m : Membership}
    (hm : findMembership s userId planetId = some m) :
    joinPlanet userId planetId s = (s, .error (.Forbidden (joinDenyMsg m.status))) := by
  unfold joinPlanet
  rw [hm]
  cases hst : m.status <;> simp [joinDenyMsg, hst]

lemma joinPlanet_noPlanet {s : Store} {userId planetId : Nat}
    (hm : findMembership s userId planetId = none)
    (hp : findPlanet s planetId = none) :
    joinPlanet userId planetId s = (s, .error (.NotFound "행성을 찾을 수 없습니다.")) := by
  unfold joinPlanet
  rw [hm, hp]

lemma joinPlanet_fresh {s : Store} {userId planetId : Nat} {p : Planet}
    (hm : findMembership s userId planetId = none)
    (hp : findPlanet s planetId = some p) :
    joinPlanet userId planetId s =
      ({ s with memberships := s.memberships ++ [⟨planetId, userId, .PENDING, .MEMBER⟩] },
       .ok .PENDING) := by
  unfold joinPlanet
  rw [hm, hp]

lemma inv_joinPlanet {s : Store} (h : Inv s) (userId planetId : Nat) :
    Inv (joinPlanet userId planetId s).1 := by
  cases hm : findMembership s userId planetId with
  | some m =>
    rw [joinPlanet_existing hm]
    exact h
  | none =>
    cases hp : findPlanet s planetId with
    | none =>
      rw [joinPlanet_noPlanet hm hp]
      exact h
    | some p =>
      rw [joinPlanet_fresh hm hp]
      have hpid : planetId < s.nextPlanetId := by
        rcases findPlanet_mem hp with ⟨hpmem, hpids⟩
        rw [← hpids]
        exact h.planetIdLt p hpmem
      constructor
      · exact h.planetIdLt
      · intro m hmm
        rcases List.mem_append.mp hmm with hmm | hmm
        · exact h.memPidLt m hmm
        · rw [List.mem_singleton.mp hmm]
          exact hpid
      · exact h.planetKeyUnique
      · rw [List.pairwise_append]
        refine ⟨h.memKeyUnique, List.pairwise_singleton _ _, ?_⟩
        intro a ha b hb
        rw [List.mem_singleton.mp hb]
        intro hc
        exact findMembership_eq_none hm a ha ⟨hc.1, hc.2⟩
      · intro q hq
        rcases h.ownerMem q hq with ⟨m, hmm, hprops⟩
        exact ⟨m, List.mem_append_left _ hmm, hprops⟩
      · intro q hq m hmm h1 h2
        rcases List.mem_append.mp hmm with hmm | hmm
        · exact h.ownerOnly q hq m hmm h1 h2
        · rw [List.mem_singleton.mp hmm] at h2
          exact absurd h2 (by simp)

/-- A membership lookup is unaffected by a status update at any key. -/
lemma findMembership_updateStatus (s : Store) (planetId userId : Nat)
    (st : MembershipStatus) (uid2 pid2 : Nat) :
    findMembership
      { s with memberships := updateMembershipStatus s.memberships planetId userId st }
      uid2 pid2 =
    (findMembership s uid2 pid2).map fun m =>
      ⟨m.planetId, m.userId,
       if m.planetId == planetId && m.userId == userId then st else m.status, m.role⟩ := by
  unfold findMembership updateMembershipStatus
  rw [List.find?_map]
  rfl

/-- A membership lookup is unaffected by a role update at any key. -/
lemma findMembership_updateRole (s : Store) (planetId userId : Nat)
    (r : PlanetMemberRole) (uid2 pid2 : Nat) :
    findMembership
      { s with memberships := updateMembershipRole s.memberships planetId userId r }
      uid2 pid2 =
    (findMembership s uid2 pid2).map fun m =>
      ⟨m.planetId, m.userId, m.status,
       if m.planetId == planetId && m.userId == userId then r else m.role⟩ := by
  unfold findMembership updateMembershipRole
  rw [List.find?_map]
  rfl

lemma handleApplication_noAdmin {s : Store} {a t planetId : Nat}
    {action : MembershipStatus} (ha : findMembership s a planetId = none) :
    handleApplication a t planetId action s =
      (s, .error (.Forbidden "관리자나 주인만 승인/거절을 할 수 있습니다.")) := by
  unfold handleApplication
  rw [ha]

lemma handleApplication_badRole {s : Store} {a t planetId : Nat}
    {action : MembershipStatus} {am : Membership}
    (ha : findMembership s a planetId = some am)
    (hrole : am.role ≠ PlanetMemberRole.ADMIN ∧ am.role ≠ PlanetMemberRole.OWNER) :
    handleApplication a t planetId action s =
      (s, .error (.Forbidden "관리자나 주인만 승인/거절을 할 수 있습니다.")) := by
  simp only [handleApplication, ha]
  rw [if_pos hrole]

lemma handleApplication_noTarget {s : Store} {a t planetId : Nat}
    {action : MembershipStatus} {am : Membership}
    (ha : findMembership s a planetId = some am)
    (hrole : am.role = PlanetMemberRole.ADMIN ∨ am.role = PlanetMemberRole.OWNER)
    (ht : findMembership s t planetId = none) :
    handleApplication a t planetId action s =
      (s, .error (.NotFound "유효하지 않은 가입 신청입니다.")) := by
  simp only [handleApplication, ha, ht]
  rw [if_neg (by tauto)]

lemma handleApplication_notPending {s : Store} {a t planetId : Nat}
    {action : MembershipStatus} {am tm : Membership}
    (ha : findMembership s a planetId = some am)
    (hrole : am.role = PlanetMemberRole.ADMIN ∨ am.role = PlanetMemberRole.OWNER)
    (ht : findMembership s t planetId = some tm)
    (hst : tm.status ≠ MembershipStatus.PENDING) :
    handleApplication a t planetId action s =
      (s, .error (.NotFound "유효하지 않은 가입 신청입니다.")) := by
  simp only [handleApplication, ha, ht]
  rw [if_neg (by tauto), if_pos hst]

lemma handleApplication_success {s : Store} {a t planetId : Nat}
    {action : MembershipStatus} {am tm : Membership}
    (ha : findMembership s a planetId = some am)
    (hrole : am.role = PlanetMemberRole.ADMIN ∨ am.role = PlanetMemberRole.OWNER)
    (ht : findMembership s t planetId = some tm)
    (hst : tm.status = MembershipStatus.PENDING) :
    handleApplication a t planetId action s =
      ({ s with memberships := updateMembershipStatus s.memberships planetId t action },
       match action with
       | .APPROVED => .ok "가입 신청이 승인되었습니다."
       | .REJECTED => .ok "가입 신청이 거절되었습니다."
       | .PENDING => .error (.Internal "유효하지 않은 작업입니다.")) := by
  simp only [handleApplication, ha, ht]
  rw [if_neg (by tauto), if_neg (by simp [hst])]
  cases action <;> rfl

lemma inv_handleApplication {s : Store} (h : Inv s) (a t planetId : Nat)
    (action : MembershipStatus) :
    Inv (handleApplication a t planetId action s).1 := by
  cases ha : findMembership s a planetId with
  | none => rw [handleApplication_noAdmin ha]; exact h
  | some am =>
    by_cases hrole : am.role = PlanetMemberRole.ADMIN ∨ am.role = PlanetMemberRole.OWNER
    · cases ht : findMembership s t planetId with
      | none => rw [handleApplication_noTarget ha hrole ht]; exact h
      | some tm =>
        by_cases hst : tm.status = MembershipStatus.PENDING
        · rw [handleApplication_success ha hrole ht hst]
          rcases findMembership_mem ht with ⟨htm, htp, htu⟩
          have hres : (({ s with memberships := updateMembershipStatus s.memberships planetId t action },
              match action with
              | MembershipStatus.APPROVED => (Except.ok "가입 신청이 승인되었습니다." : Except DomainError String)
              | MembershipStatus.REJECTED => .ok "가입 신청이 거절되었습니다."
              | MembershipStatus.PENDING => .error (.Internal "유효하지 않은 작업입니다.")) : Store × Except DomainError String).1 =
              { s with memberships := updateMembershipStatus s.memberships planetId t action } := by
            cases action <;> rfl
          rw [hres]
          constructor
          · exact h.planetIdLt
          · intro m hm
            rcases List.mem_map.mp hm with ⟨m0, hm0, rfl⟩
            exact h.memPidLt m0 hm0
          · exact h.planetKeyUnique
          · rw [updateMembershipStatus, List.pairwise_map]
            exact h.memKeyUnique.imp fun hab => hab
          · intro p hp
            rcases h.ownerMem p hp with ⟨m, hm, h1, h2, h3, h4⟩
            refine ⟨⟨m.planetId, m.userId,
              if m.planetId == planetId && m.userId == t then action else m.status, m.role⟩,
              List.mem_map_of_mem _ hm, h1, h2, h3, ?_⟩
            have hne : ¬(m.planetId == planetId && m.userId == t) = true := by
              intro hk
              simp only [Bool.and_eq_true, beq_iff_eq] at hk
              have := mem_key_eq h.memKeyUnique hm htm (hk.1.trans htp.symm) (hk.2.trans htu.symm)
              rw [this] at h4
              exact absurd (h4.symm.trans hst) (by simp)
            simp [hne, h4]
          · intro p hp m hm h1 h2
            rcases List.mem_map.mp hm with ⟨m0, hm0, rfl⟩
            have h1' : m0.planetId = p.id := h1
            have h2' : m0.role = PlanetMemberRole.OWNER := h2
            have := h.ownerOnly p hp m0 hm0 h1' h2'
            refine ⟨this.1, ?_⟩
            have hne : ¬(m0.planetId == planetId && m0.userId == t) = true := by
              intro hk
              simp only [Bool.and_eq_true, beq_iff_eq] at hk
              have heq := mem_key_eq h.memKeyUnique hm0 htm (hk.1.trans htp.symm) (hk.2.trans htu.symm)
              rw [heq] at this
              exact absurd (this.2.symm.trans hst) (by simp)
            simp [hne, this.2]
        · rw [handleApplication_notPending ha hrole ht hst]; exact h
    · rw [handleApplication_badRole ha (by tauto)]; exact h

lemma leavePlanet_noPlanet {s : Store} {userId planetId : Nat}
    (hp : findPlanet s planetId = none) :
    leavePlanet userId planetId s = (s, .error (.NotFound "해당 행성을 찾을 수 없습니다.")) := by
  unfold leavePlanet
  rw [hp]

lemma leavePlanet_owner {s : Store} {userId planetId : Nat} {p : Planet}
    (hp : findPlanet s planetId = some p) (how : p.ownerId = userId) :
    leavePlanet userId planetId s =
      (s, .error (.Forbidden "행성의 주인은 행성을 탈출할 수 없습니다.")) := by
  simp only [leavePlanet, hp]
  rw [if_pos how]

lemma leavePlanet_noMembership {s : Store} {userId planetId : Nat} {p : Planet}
    (hp : findPlanet s planetId = some p) (how : p.ownerId ≠ userId)
    (hm : findMembership s userId planetId = none) :
    leavePlanet userId planetId s =
      (s, .error (.NotFound "해당 행성에 가입되어 있지 않습니다.")) := by
  simp only [leavePlanet, hp, hm]
  rw [if_neg how]

lemma leavePlanet_success {s : Store} {userId planetId : Nat} {p : Planet} {m : Membership}
    (hp : findPlanet s planetId = some p) (how : p.ownerId ≠ userId)
    (hm : findMembership s userId planetId = some m) :
    leavePlanet userId planetId s =
      ({ s with memberships :=
          s.memberships.filter fun mm => !(mm.planetId == planetId && mm.userId == userId) },
       .ok ()) := by
  simp only [leavePlanet, hp, hm]
  rw [if_neg how]

lemma inv_leavePlanet {s : Store} (h : Inv s) (userId planetId : Nat) :
    Inv (leavePlanet userId planetId s).1 := by
  cases hp : findPlanet s planetId with
  | none => rw [leavePlanet_noPlanet hp]; exact h
  | some p =>
    by_cases how : p.ownerId = userId
    · rw [leavePlanet_owner hp how]; exact h
    · cases hm : findMembership s userId planetId with
      | none => rw [leavePlanet_noMembership hp how hm]; exact h
      | some m =>
        rw [leavePlanet_success hp how hm]
        rcases findPlanet_mem hp with ⟨hpmem, hpid⟩
        constructor
        · exact h.planetIdLt
        · intro mm hmm
          exact h.memPidLt mm (List.mem_filter.mp hmm).1
        · exact h.planetKeyUnique
        · exact h.memKeyUnique.filter _
        · intro q hq
          rcases h.ownerMem q hq with ⟨mm, hmm, h1, h2, h3, h4⟩
          have hkey : ¬(mm.planetId = planetId ∧ mm.userId = userId) := by
            rintro ⟨hk1, hk2⟩
            have hqp : q = p := planet_key_eq h.planetKeyUnique hq hpmem (by rw [← h1, hk1, hpid])
            exact how (by rw [← hk2, h2, hqp])
          refine ⟨mm, List.mem_filter.mpr ⟨hmm, ?_⟩, h1, h2, h3, h4⟩
          simp only [Bool.not_eq_true', Bool.and_eq_false_iff, beq_eq_false_iff_ne, ne_eq]
          tauto
        · intro q hq mm hmm h1 h2
          exact h.ownerOnly q hq mm (List.mem_filter.mp hmm).1 h1 h2

lemma updateMemberRole_noPlanet {s : Store} {planetId userId currentUserId : Nat}
    {r : PlanetMemberRole} (hp : findPlanet s planetId = none) :
    updateMemberRole planetId userId r currentUserId s =
      (s, .error (.Forbidden "행성의 소유자만 멤버 권한을 수정할 수 있습니다.")) := by
  unfold updateMemberRole
  rw [hp]

lemma updateMemberRole_notOwner {s : Store} {planetId userId currentUserId : Nat}
    {r : PlanetMemberRole} {p : Planet} (hp : findPlanet s planetId = some p)
    (hno : p.ownerId ≠ currentUserId) :
    updateMemberRole planetId userId r currentUserId s =
      (s, .error (.Forbidden "행성의 소유자만 멤버 권한을 수정할 수 있습니다.")) := by
  simp only [updateMemberRole, hp]
  rw [if_pos hno]

lemma updateMemberRole_ownerTarget {s : Store} {planetId userId currentUserId : Nat}
    {r : PlanetMemberRole} {p : Planet} (hp : findPlanet s planetId = some p)
    (ho : p.ownerId = currentUserId) (ht : userId = p.ownerId) :
    updateMemberRole planetId userId r currentUserId s =
      (s, .error (.Forbidden "행성의 주인의 역할은 수정할 수 없습니다.")) := by
  simp only [updateMemberRole, hp]
  rw [if_neg (not_not_intro ho), if_pos ht]

lemma updateMemberRole_noMembership {s : Store} {planetId userId currentUserId : Nat}
    {r : PlanetMemberRole} {p : Planet} (hp : findPlanet s planetId = some p)
    (ho : p.ownerId = currentUserId) (ht : userId ≠ p.ownerId)
    (hm : findMembership s userId planetId = none) :
    updateMemberRole planetId userId r currentUserId s = (s, .error .DbRecordNotFound) := by
  simp only [updateMemberRole, hp, hm]
  rw [if_neg (not_not_intro ho), if_neg ht]

lemma updateMemberRole_success {s : Store} {planetId userId currentUserId : Nat}
    {r : PlanetMemberRole} {p : Planet} {m : Membership}
    (hp : findPlanet s planetId = some p) (ho : p.ownerId = currentUserId)
    (ht : userId ≠ p.ownerId) (hm : findMembership s userId planetId = some m) :
    updateMemberRole planetId userId r currentUserId s =
      ({ s with memberships := updateMembershipRole s.memberships planetId userId r },
       .ok "멤버의 권한이 수정되었습니다.") := by
  simp only [updateMemberRole, hp, hm]
  rw [if_neg (not_not_intro ho), if_neg ht]

lemma inv_updateMemberRole {s : Store} (h : Inv s) (planetId userId : Nat)
    (r : PlanetMemberRole) (currentUserId : Nat) (hr : r ≠ PlanetMemberRole.OWNER) :
    Inv (updateMemberRole planetId userId r currentUserId s).1 := by
  cases hp : findPlanet s planetId with
  | none => rw [updateMemberRole_noPlanet hp]; exact h
  | some p =>
    by_cases ho : p.ownerId = currentUserId
    · by_cases ht : userId = p.ownerId
      · rw [updateMemberRole_ownerTarget hp ho ht]; exact h
      · cases hm : findMembership s userId planetId with
        | none => rw [updateMemberRole_noMembership hp ho ht hm]; exact h
        | some m =>
          rw [updateMemberRole_success hp ho ht hm]
          rcases findPlanet_mem hp with ⟨hpmem, hpid⟩
          constructor
          · exact h.planetIdLt
          · intro mm hmm
            rcases List.mem_map.mp hmm with ⟨m0, hm0, rfl⟩
            exact h.memPidLt m0 hm0
          · exact h.planetKeyUnique
          · rw [updateMembershipRole, List.pairwise_map]
            exact h.memKeyUnique.imp fun hab => hab
          · intro q hq
            rcases h.ownerMem q hq with ⟨mm, hmm, h1, h2, h3, h4⟩
            refine ⟨⟨mm.planetId, mm.userId, mm.status,
              if mm.planetId == planetId && mm.userId == userId then r else mm.role⟩,
              List.mem_map_of_mem _ hmm, h1, h2, ?_, h4⟩
            have hne : ¬(mm.planetId == planetId && mm.userId == userId) = true := by
              intro hk
              simp only [Bool.and_eq_true, beq_iff_eq] at hk
              have hqp : q = p := planet_key_eq h.planetKeyUnique hq hpmem (by rw [← h1, hk.1, hpid])
              exact ht (by rw [← hk.2, h2, hqp])
            simp [hne, h3]
          · intro q hq mm hmm h1 h2
            rcases List.mem_map.mp hmm with ⟨m0, hm0, rfl⟩
            have h1' : m0.planetId = q.id := h1
            by_cases hk : (m0.planetId == planetId && m0.userId == userId) = true
            · exact absurd (by simpa [hk] using h2) hr
            · have h2' : m0.role = PlanetMemberRole.OWNER := by simpa [hk] using h2
              have := h.ownerOnly q hq m0 hm0 h1' h2'
              exact ⟨this.1, this.2⟩
    · rw [updateMemberRole_notOwner hp ho]; exact h

lemma deletePlanet_noPlanet {s : Store} {planetId userId : Nat} {isAdmin fail : Bool}
    (hp : findPlanet s planetId = none) :
    deletePlanet planetId userId isAdmin fail s =
      (s, .error (.NotFound "행성을 찾을 수 없습니다.")) := by
  unfold deletePlanet
  rw [hp]

lemma deletePlanet_forbidden {s : Store} {planetId userId : Nat} {isAdmin fail : Bool}
    {p : Planet} (hp : findPlanet s planetId = some p)
    (hperm : ¬ isAdmin = true ∧ p.ownerId ≠ userId) :
    deletePlanet planetId userId isAdmin fail s =
      (s, .error (.Forbidden "행성 주인만 삭제할 수 있습니다.")) := by
  simp only [deletePlanet, hp]
  rw [if_pos hperm]

lemma deletePlanet_rollback {s : Store} {planetId userId : Nat} {isAdmin : Bool}
    {p : Planet} (hp : findPlanet s planetId = some p)
    (hperm : isAdmin = true ∨ p.ownerId = userId) :
    deletePlanet planetId userId isAdmin true s = (s, .error .DbError) := by
  simp only [deletePlanet, hp]
  rw [if_neg (by tauto)]
  simp

lemma deletePlanet_success {s : Store} {planetId userId : Nat} {isAdmin : Bool}
    {p : Planet} (hp : findPlanet s planetId = some p)
    (hperm : isAdmin = true ∨ p.ownerId = userId) :
    deletePlanet planetId userId isAdmin false s =
      ({ s with articles := s.articles.filter fun a2 => !(a2.planetId == planetId),
                planets := s.planets.filter fun q => !(q.id == planetId) },
       .ok p) := by
  simp only [deletePlanet, hp]
  rw [if_neg (by tauto)]
  simp

lemma inv_deletePlanet {s : Store} (h : Inv s) (planetId userId : Nat) (isAdmin : Bool) :
    Inv (deletePlanet planetId userId isAdmin false s).1 := by
  cases hp : findPlanet s planetId with
  | none => rw [deletePlanet_noPlanet hp]; exact h
  | some p =>
    by_cases hperm : isAdmin = true ∨ p.ownerId = userId
    · rw [deletePlanet_success hp hperm]
      constructor
      · intro q hq
        exact h.planetIdLt q (List.mem_filter.mp hq).1
      · exact h.memPidLt
      · exact h.planetKeyUnique.filter _
      · exact h.memKeyUnique
      · intro q hq
        exact h.ownerMem q (List.mem_filter.mp hq).1
      · intro q hq mm hmm h1 h2
        exact h.ownerOnly q (List.mem_filter.mp hq).1 mm hmm h1 h2
    · rw [deletePlanet_forbidden hp (by tauto)]; exact h

lemma transferOwnership_noPlanet {s : Store} {planetId newOwnerId currentOwnerId : Nat}
    (hp : findPlanet s planetId = none) :
    transferOwnership planetId newOwnerId currentOwnerId s =
      (s, .error (.NotFound "해당 행성을 찾을 수 없습니다.")) := by
  unfold transferOwnership
  rw [hp]

lemma transferOwnership_forbidden {s : Store} {planetId newOwnerId currentOwnerId : Nat}
    {p : Planet} (hp : findPlanet s planetId = some p)
    (hno : p.ownerId ≠ currentOwnerId) :
    transferOwnership planetId newOwnerId currentOwnerId s =
      (s, .error (.Forbidden "행성의 소유권을 이전할 권한이 없습니다.")) := by
  simp only [transferOwnership, hp]
  rw [if_pos hno]

lemma transferOwnership_noMembership {s : Store} {planetId newOwnerId currentOwnerId : Nat}
    {p : Planet} (hp : findPlanet s planetId = some p)
    (ho : p.ownerId = currentOwnerId)
    (hm : findMembership s newOwnerId planetId = none) :
    transferOwnership planetId newOwnerId currentOwnerId s =
      (s, .error (.NotFound "새 소유자는 행성의 멤버가 아닙니다.")) := by
  simp only [transferOwnership, hp, hm]
  rw [if_neg (not_not_intro ho)]

lemma transferOwnership_success {s : Store} {planetId newOwnerId currentOwnerId : Nat}
    {p : Planet} {m : Membership} (hp : findPlanet s planetId = some p)
    (ho : p.ownerId = currentOwnerId)
    (hm : findMembership s newOwnerId planetId = some m) :
    transferOwnership planetId newOwnerId currentOwnerId s =
      ({ s with planets := s.planets.map fun q =>
          ⟨q.id, if q.id == planetId then newOwnerId else q.ownerId, q.pname, q.published⟩ },
       .ok ()) := by
  simp only [transferOwnership, hp, hm]
  rw [if_neg (not_not_intro ho)]

lemma updatePlanet_noPlanet {s : Store} {planetId userId : Nat} {newName : Option String}
    (hp : findPlanet s planetId = none) :
    updatePlanet planetId userId newName s =
      (s, .error (.NotFound "행성을 찾을 수 없습니다.")) := by
  unfold updatePlanet
  rw [hp]

lemma kickMember_noMembership {s : Store} {currentUserId targetUserId planetId : Nat}
    (hm : findMembership s currentUserId planetId = none) :
    kickMember currentUserId targetUserId planetId s =
      (s, .error (.NotFound "멤버십 정보를 찾을 수 없습니다.")) := by
  unfold kickMember
  rw [hm]

lemma kickMember_forbidden {s : Store} {currentUserId targetUserId planetId : Nat}
    {m : Membership} {p : Planet}
    (hm : findMembership s currentUserId planetId = some m)
    (hp : findPlanet s planetId = some p)
    (hr : m.role ≠ PlanetMemberRole.ADMIN ∧ p.ownerId ≠ currentUserId) :
    kickMember currentUserId targetUserId planetId s =
      (s, .error (.Forbidden "행성의 관리자 또는 주인만 회원을 추방할 수 있습니다.")) := by
  simp only [kickMember, hm, hp]
  rw [if_pos hr]

lemma kickMember_delegate {s : Store} {currentUserId targetUserId planetId : Nat}
    {m : Membership} {p : Planet}
    (hm : findMembership s currentUserId planetId = some m)
    (hp : findPlanet s planetId = some p)
    (hr : ¬(m.role ≠ PlanetMemberRole.ADMIN ∧ p.ownerId ≠ currentUserId)) :
    kickMember currentUserId targetUserId planetId s =
      (match leavePlanet targetUserId planetId s with
       | (s1, .ok _) => (s1, .ok "사용자가 행성에서 성공적으로 추방되었습니다.")
       | (s1, .error e) => (s1, .error e)) := by
  simp only [kickMember, hm, hp]
  rw [if_neg hr]

/-- The store a kick leaves behind is either untouched or the one the
delegated leave produces. -/
lemma kickMember_state (currentUserId targetUserId planetId : Nat) (s : Store) :
    (kickMember currentUserId targetUserId planetId s).1 = s ∨
    (kickMember currentUserId targetUserId planetId s).1 =
      (leavePlanet targetUserId planetId s).1 := by
  cases hm : findMembership s currentUserId planetId with
  | none => rw [kickMember_noMembership hm]; left; rfl
  | some m =>
    cases hp : findPlanet s planetId with
    | none =>
      left
      unfold kickMember
      rw [hm, hp]
    | some p =>
      by_cases hr : m.role ≠ PlanetMemberRole.ADMIN ∧ p.ownerId ≠ currentUserId
      · rw [kickMember_forbidden hm hp hr]; left; rfl
      · rw [kickMember_delegate hm hp hr]
        right
        rcases hl : leavePlanet targetUserId planetId s with ⟨s1, r⟩
        cases r <;> rfl

lemma inv_kickMember {s : Store} (h : Inv s) (currentUserId targetUserId planetId : Nat) :
    Inv (kickMember currentUserId targetUserId planetId s).1 := by
  rcases kickMember_state currentUserId targetUserId planetId s with hs | hs
  · rw [hs]; exact h
  · rw [hs]; exact inv_leavePlanet h targetUserId planetId

lemma inv_step {s : Store} (h : Inv s) {op : Op} (hop : allowedOp op = true) :
    Inv (step s op) := by
  cases op with
  | createPlanet pname pub uid => exact inv_createPlanet h pname pub uid
  | joinPlanet uid planetId => exact inv_joinPlanet h uid planetId
  | approveApplication a t planetId => exact inv_handleApplication h a t planetId .APPROVED
  | rejectApplication a t planetId => exact inv_handleApplication h a t planetId .REJECTED
  | leavePlanet uid planetId => exact inv_leavePlanet h uid planetId
  | updateMemberRole planetId uid r cur =>
    have hr : r ≠ PlanetMemberRole.OWNER := by simpa [allowedOp] using hop
    exact inv_updateMemberRole h planetId uid r cur hr
  | transferOwnership planetId newO cur => simp [allowedOp] at hop
  | deletePlanet planetId uid isAdmin => exact inv_deletePlanet h planetId uid isAdmin
  | kickMember cur t planetId => exact inv_kickMember h cur t planetId

lemma inv_runFrom {s : Store} (h : Inv s) {ops : List Op}
    (hops : ∀ op ∈ ops, allowedOp op = true) : Inv (runFrom s ops) := by
  induction ops generalizing s with
  | nil => exact h
  | cons op ops ih =>
    exact ih (inv_step h (hops op (List.mem_cons_self _ _)))
      (fun o ho => hops o (List.mem_cons_of_mem _ ho))

lemma inv_run {ops : List Op} (hops : ∀ op ∈ ops, allowedOp op = true) : Inv (run ops) :=
  inv_runFrom inv_emptyStore hops

/-- A planet lookup through the ownerId rewrite of transferOwnership. -/
lemma findPlanet_map_owner (s : Store) (planetId newOwnerId pid2 : Nat) :
    findPlanet
      { s with planets := s.planets.map fun q =>
          ⟨q.id, if q.id == planetId then newOwnerId else q.ownerId, q.pname, q.published⟩ }
      pid2 =
    (findPlanet s pid2).map fun q =>
      ⟨q.id, if q.id == planetId then newOwnerId else q.ownerId, q.pname, q.published⟩ := by
  unfold findPlanet
  rw [List.find?_map]
  rfl

/-- leavePlanet never changes the Planet table. -/
lemma leavePlanet_planets (u q : Nat) (s : Store) :
    (leavePlanet u q s).1.planets = s.planets := by
  cases hp : findPlanet s q with
  | none => rw [leavePlanet_noPlanet hp]
  | some p =>
    by_cases how : p.ownerId = u
    · rw [leavePlanet_owner hp how]
    · cases hm : findMembership s u q with
      | none => rw [leavePlanet_noMembership hp how hm]
      | some m => rw [leavePlanet_success hp how hm]

/-- No leave call, whatever its target, removes the membership row of the
owner of an existing planet. -/
lemma leavePlanet_keeps_owner {s : Store} {planetId : Nat} {p : Planet} {m : Membership}
    (hp : findPlanet s planetId = some p) (hm : m ∈ s.memberships)
    (h1 : m.planetId = planetId) (h2 : m.userId = p.ownerId) (u q : Nat) :
    m ∈ (leavePlanet u q s).1.memberships := by
  cases hp2 : findPlanet s q with
  | none => rw [leavePlanet_noPlanet hp2]; exact hm
  | some p2 =>
    by_cases how : p2.ownerId = u
    · rw [leavePlanet_owner hp2 how]; exact hm
    · cases hm2 : findMembership s u q with
      | none => rw [leavePlanet_noMembership hp2 how hm2]; exact hm
      | some m2 =>
        rw [leavePlanet_success hp2 how hm2]
        have hkey : ¬(m.planetId = q ∧ m.userId = u) := by
          rintro ⟨hk1, hk2⟩
          rw [hk1] at h1
          rw [h1] at hp2
          rw [hp2] at hp
          have hpp : p2 = p := by injection hp
          exact how (by rw [hpp, ← h2, hk2])
        refine List.mem_filter.mpr ⟨hm, ?_⟩
        simp only [Bool.not_eq_true', Bool.and_eq_false_iff, beq_eq_false_iff_ne, ne_eq]
        tauto

/-- kickMember never changes the Planet table. -/
lemma kickMember_planets (c t q : Nat) (s : Store) :
    (kickMember c t q s).1.planets = s.planets := by
  rcases kickMember_state c t q s with hs | hs
  · rw [hs]
  · rw [hs]
    exact leavePlanet_planets t q s

/-- No kick call, whatever its target, removes the membership row of the
owner of an existing planet. -/
lemma kickMember_keeps_owner {s : Store} {planetId : Nat} {p : Planet} {m : Membership}
    (hp : findPlanet s planetId = some p) (hm : m ∈ s.memberships)
    (h1 : m.planetId = planetId) (h2 : m.userId = p.ownerId) (c u q : Nat) :
    m ∈ (kickMember c u q s).1.memberships := by
  rcases kickMember_state c u q s with hs | hs
  · rw [hs]; exact hm
  · rw [hs]
    exact leavePlanet_keeps_owner hp hm h1 h2 u q

lemma findPlanet_eq_planets {s1 s2 : Store} (h : s1.planets = s2.planets) (pid : Nat) :
    findPlanet s1 pid = findPlanet s2 pid := by
  unfold findPlanet
  rw [h]

/-- Folding any sequence of leave and kick calls keeps the planet table
intact and keeps the owner's membership row of every existing planet. -/
lemma runFrom_leaveKick_keeps {ops : List Op} {s : Store}
    (hops : ∀ op ∈ ops, leaveOrKick op = true) {planetId : Nat} {p : Planet}
    {m : Membership} (hp : findPlanet s planetId = some p) (hm : m ∈ s.memberships)
    (h1 : m.planetId = planetId) (h2 : m.userId = p.ownerId) :
    findPlanet (runFrom s ops) planetId = some p ∧ m ∈ (runFrom s ops).memberships := by
  induction ops generalizing s with
  | nil => exact ⟨hp, hm⟩
  | cons op ops ih =>
    have hop := hops op (List.mem_cons_self _ _)
    have hops' : ∀ o ∈ ops, leaveOrKick o = true :=
      fun o ho => hops o (List.mem_cons_of_mem _ ho)
    cases op with
    | leavePlanet u q =>
      exact ih hops'
        ((findPlanet_eq_planets (leavePlanet_planets u q s) planetId).trans hp)
        (leavePlanet_keeps_owner hp hm h1 h2 u q)
    | kickMember c u q =>
      exact ih hops'
        ((findPlanet_eq_planets (kickMember_planets c u q s) planetId).trans hp)
        (kickMember_keeps_owner hp hm h1 h2 c u q)
    | createPlanet pname pub uid => simp [leaveOrKick] at hop
    | joinPlanet uid pid2 => simp [leaveOrKick] at hop
    | approveApplication a t pid2 => simp [leaveOrKick] at hop
    | rejectApplication a t pid2 => simp [leaveOrKick] at hop
    | updateMemberRole pid2 uid r cur => simp [leaveOrKick] at hop
    | transferOwnership pid2 no co => simp [leaveOrKick] at hop
    | deletePlanet pid2 uid isAdmin => simp [leaveOrKick] at hop

/-- Claim C1, counterexample: the owner invariant does not hold in every
state reachable by the listed service calls.  After `createPlanet` by user 1,
`joinPlanet` by user 2 and `transferOwnership` of planet 1 from user 1 to
user 2 — all three calls succeed — the planet's ownerId is 2 while its only
OWNER membership still belongs to user 1, so the OWNER membership's userId no
longer equals the planet's ownerId. -/
theorem c1_owner_invariant_cex : ¬ OwnerInvariant (run c1BadOps) := by decide

/-- Claim C1, amended: in every store state reachable from the empty store by
service calls other than transferOwnership and other than updateMemberRole
with new role OWNER (kickMember also allowed), every planet has exactly one
membership with role OWNER, that membership's userId equals the planet's
ownerId, and its status is APPROVED. -/
theorem c1_owner_invariant (ops : List Op) (hops : ∀ op ∈ ops, allowedOp op = true) :
    OwnerInvariant (run ops) :=
  inv_ownerInvariant (inv_run hops)

/-- Witness for C1: a concrete allowed call sequence exercising create, join,
approve, role change, kick and delete, on which the theorem applies. -/
theorem c1_owner_invariant_witness :
    OwnerInvariant (run [.createPlanet "p" true 1, .joinPlanet 2 1,
      .approveApplication 1 2 1, .updateMemberRole 1 2 .ADMIN 1,
      .kickMember 1 2 1, .createPlanet "q" false 3, .deletePlanet 1 1 false]) :=
  c1_owner_invariant _ (by decide)

/-- Claim C2: the two-table write of createPlanet is NOT atomic in the code —
no transaction wraps the planet insert and the membership insert.  Evaluating
createPlanet with the membership insert failing (after the planet insert
succeeded) leaves the planet row visible in the store with no membership row,
contradicting the claimed rollback. -/
theorem c2_create_not_atomic :
    (createPlanet "earth" true 7 true emptyStore).1.planets = [⟨1, 7, "earth", true⟩] ∧
    (createPlanet "earth" true 7 true emptyStore).1.memberships = [] ∧
    (createPlanet "earth" true 7 true emptyStore).2 = .error .DbError :=
  ⟨rfl, rfl, rfl⟩

/-- Claim C3: deletePlanet, for the owner or with the superuser override,
removes the planet row and all the planet's articles in one transaction: after
success neither is present, and a failure of the final delete inside the
transaction rolls the whole store back unchanged. -/
theorem c3_delete_cascade_atomic (s : Store) (planetId userId : Nat) (isAdmin : Bool)
    (p : Planet) (hp : findPlanet s planetId = some p)
    (hperm : isAdmin = true ∨ p.ownerId = userId) :
    ((deletePlanet planetId userId isAdmin false s).2 = .ok p ∧
     (deletePlanet planetId userId isAdmin false s).1.planets.countP
        (fun q => q.id == planetId) = 0 ∧
     (deletePlanet planetId userId isAdmin false s).1.articles.countP
        (fun a2 => a2.planetId == planetId) = 0) ∧
    deletePlanet planetId userId isAdmin true s = (s, .error .DbError) := by
  constructor
  · rw [deletePlanet_success hp hperm]
    refine ⟨rfl, ?_, ?_⟩
    · rw [List.countP_eq_zero]
      intro q hq
      have := (List.mem_filter.mp hq).2
      simpa using this
    · rw [List.countP_eq_zero]
      intro a2 ha2
      have := (List.mem_filter.mp ha2).2
      simpa using this
  · exact deletePlanet_rollback hp hperm

/-- Witness for C3: deleting planet 1 of the concrete store as its owner. -/
theorem c3_delete_cascade_atomic_witness :
    ((deletePlanet 1 1 false false sW).2 = .ok ⟨1, 1, "terra", true⟩ ∧
     (deletePlanet 1 1 false false sW).1.planets.countP (fun q => q.id == 1) = 0 ∧
     (deletePlanet 1 1 false false sW).1.articles.countP (fun a2 => a2.planetId == 1) = 0) ∧
    deletePlanet 1 1 false true sW = (sW, .error .DbError) :=
  c3_delete_cascade_atomic sW 1 1 false ⟨1, 1, "terra", true⟩ rfl (by decide)

/-- Claim C4, counterexample: updateMemberRole on a planet id that does not
exist fails with a Forbidden error, not NotFound, so not every operation
distinguishes absence from denial. -/
theorem c4_absent_planet_cex :
    findPlanet emptyStore 1 = none ∧
    (updateMemberRole 1 2 .MEMBER 3 emptyStore).2 =
      .error (.Forbidden "행성의 소유자만 멤버 권한을 수정할 수 있습니다.") :=
  ⟨rfl, rfl⟩

/-- Claim C4, amended: when the referenced planet does not exist,
updatePlanet, deletePlanet, leavePlanet and transferOwnership fail NotFound,
joinPlanet fails NotFound provided the caller has no membership row at that
planet id, but updateMemberRole fails Forbidden (its combined guard conflates
absence with denial). -/
theorem c4_absent_planet (s : Store) (planetId userId newOwnerId currentUserId : Nat)
    (newName : Option String) (isAdmin fail : Bool) (r : PlanetMemberRole)
    (hp : findPlanet s planetId = none) :
    updatePlanet planetId userId newName s =
      (s, .error (.NotFound "행성을 찾을 수 없습니다.")) ∧
    deletePlanet planetId userId isAdmin fail s =
      (s, .error (.NotFound "행성을 찾을 수 없습니다.")) ∧
    leavePlanet userId planetId s =
      (s, .error (.NotFound "해당 행성을 찾을 수 없습니다.")) ∧
    transferOwnership planetId newOwnerId currentOwnerId s =
      (s, .error (.NotFound "해당 행성을 찾을 수 없습니다.")) ∧
    (findMembership s userId planetId = none →
      joinPlanet userId planetId s = (s, .error (.NotFound "행성을 찾을 수 없습니다."))) ∧
    updateMemberRole planetId userId r currentUserId s =
      (s, .error (.Forbidden "행성의 소유자만 멤버 권한을 수정할 수 있습니다.")) :=
  ⟨updatePlanet_noPlanet hp, deletePlanet_noPlanet hp, leavePlanet_noPlanet hp,
   transferOwnership_noPlanet hp, fun hm => joinPlanet_noPlanet hm hp,
   updateMemberRole_noPlanet hp⟩

/-- Witness for C4 (amended) at the empty store and planet id 1. -/
theorem c4_absent_planet_witness :
    updatePlanet 1 2 none emptyStore =
      (emptyStore, .error (.NotFound "행성을 찾을 수 없습니다.")) ∧
    deletePlanet 1 2 false false emptyStore =
      (emptyStore, .error (.NotFound "행성을 찾을 수 없습니다.")) ∧
    leavePlanet 2 1 emptyStore =
      (emptyStore, .error (.NotFound "해당 행성을 찾을 수 없습니다.")) ∧
    transferOwnership 1 3 4 emptyStore =
      (emptyStore, .error (.NotFound "해당 행성을 찾을 수 없습니다.")) ∧
    (findMembership emptyStore 2 1 = none →
      joinPlanet 2 1 emptyStore = (emptyStore, .error (.NotFound "행성을 찾을 수 없습니다."))) ∧
    updateMemberRole 1 2 .MEMBER 4 emptyStore =
      (emptyStore, .error (.Forbidden "행성의 소유자만 멤버 권한을 수정할 수 있습니다.")) :=
  c4_absent_planet emptyStore 1 2 3 4 none false false .MEMBER rfl

/-- Claim C5: joinPlanet for a user with no membership row at an existing
planet — whatever the planet's published flag — appends exactly one
membership row with status PENDING and role MEMBER, and returns PENDING. -/
theorem c5_join_fresh (s : Store) (userId planetId : Nat) (p : Planet)
    (hm : findMembership s userId planetId = none)
    (hp : findPlanet s planetId = some p) :
    joinPlanet userId planetId s =
      ({ s with memberships := s.memberships ++ [⟨planetId, userId, .PENDING, .MEMBER⟩] },
       .ok .PENDING) :=
  joinPlanet_fresh hm hp

/-- Witness for C5: user 6 joins planet 1 of the concrete store. -/
theorem c5_join_fresh_witness :
    joinPlanet 6 1 sW =
      ({ sW with memberships := sW.memberships ++ [⟨1, 6, .PENDING, .MEMBER⟩] },
       .ok .PENDING) :=
  c5_join_fresh sW 6 1 ⟨1, 1, "terra", true⟩ rfl rfl

/-- Claim C6: joinPlanet with an existing membership row fails with a
Forbidden-class error carrying a status-specific message — the three messages
for APPROVED, PENDING and REJECTED are pairwise distinct — and returns the
store unchanged, so no second membership is created. -/
theorem c6_join_duplicate (s : Store) (userId planetId : Nat) (m : Membership)
    (hm : findMembership s userId planetId = some m) :
    joinPlanet userId planetId s = (s, .error (.Forbidden (joinDenyMsg m.status))) ∧
    joinDenyMsg .APPROVED ≠ joinDenyMsg .PENDING ∧
    joinDenyMsg .APPROVED ≠ joinDenyMsg .REJECTED ∧
    joinDenyMsg .PENDING ≠ joinDenyMsg .REJECTED :=
  ⟨joinPlanet_existing hm, by decide, by decide, by decide⟩

/-- Witness for C6: the PENDING applicant 2 of the concrete store rejoins. -/
theorem c6_join_duplicate_witness :
    joinPlanet 2 1 sW = (sW, .error (.Forbidden (joinDenyMsg MembershipStatus.PENDING))) ∧
    joinDenyMsg .APPROVED ≠ joinDenyMsg .PENDING ∧
    joinDenyMsg .APPROVED ≠ joinDenyMsg .REJECTED ∧
    joinDenyMsg .PENDING ≠ joinDenyMsg .REJECTED :=
  c6_join_duplicate sW 2 1 ⟨1, 2, .PENDING, .MEMBER⟩ rfl

/-- Claim C7: for a requester holding an ADMIN or OWNER membership of the
planet, approveApplication and rejectApplication succeed exactly on a target
membership that exists with status PENDING, transitioning its status to
APPROVED respectively REJECTED and touching nothing else; on a missing target
or one whose status is not PENDING they fail NotFound with the store
unchanged. -/
theorem c7_handle_application (s : Store) (a t planetId : Nat) (am : Membership)
    (ha : findMembership s a planetId = some am)
    (hrole : am.role = PlanetMemberRole.ADMIN ∨ am.role = PlanetMemberRole.OWNER) :
    (∀ tm, findMembership s t planetId = some tm → tm.status = MembershipStatus.PENDING →
      approveApplication a t planetId s =
        ({ s with memberships := updateMembershipStatus s.memberships planetId t .APPROVED },
         .ok "가입 신청이 승인되었습니다.") ∧
      findMembership (approveApplication a t planetId s).1 t planetId =
        some ⟨tm.planetId, tm.userId, .APPROVED, tm.role⟩ ∧
      rejectApplication a t planetId s =
        ({ s with memberships := updateMembershipStatus s.memberships planetId t .REJECTED },
         .ok "가입 신청이 거절되었습니다.") ∧
      findMembership (rejectApplication a t planetId s).1 t planetId =
        some ⟨tm.planetId, tm.userId, .REJECTED, tm.role⟩) ∧
    (findMembership s t planetId = none →
      approveApplication a t planetId s =
        (s, .error (.NotFound "유효하지 않은 가입 신청입니다.")) ∧
      rejectApplication a t planetId s =
        (s, .error (.NotFound "유효하지 않은 가입 신청입니다."))) ∧
    (∀ tm, findMembership s t planetId = some tm →
      tm.status ≠ MembershipStatus.PENDING →
      approveApplication a t planetId s =
        (s, .error (.NotFound "유효하지 않은 가입 신청입니다.")) ∧
      rejectApplication a t planetId s =
        (s, .error (.NotFound "유효하지 않은 가입 신청입니다."))) := by
  simp only [approveApplication, rejectApplication]
  refine ⟨?_, ?_, ?_⟩
  · intro tm ht hst
    rcases findMembership_mem ht with ⟨htm, htp, htu⟩
    have happ := @handleApplication_success s a t planetId .APPROVED am tm ha hrole ht hst
    have hrej := @handleApplication_success s a t planetId .REJECTED am tm ha hrole ht hst
    refine ⟨happ, ?_, hrej, ?_⟩
    · rw [happ, findMembership_updateStatus, ht]
      simp [htp, htu]
    · rw [hrej, findMembership_updateStatus, ht]
      simp [htp, htu]
  · intro ht
    exact ⟨handleApplication_noTarget ha hrole ht, handleApplication_noTarget ha hrole ht⟩
  · intro tm ht hst
    exact ⟨handleApplication_notPending ha hrole ht hst,
      handleApplication_notPending ha hrole ht hst⟩

/-- Witness for C7: admin 3 approves the PENDING applicant 2, while the
already-REJECTED applicant 4 and the absent applicant 6 yield NotFound. -/
theorem c7_handle_application_witness :
    approveApplication 3 2 1 sW =
      ({ sW with memberships := updateMembershipStatus sW.memberships 1 2 .APPROVED },
       .ok "가입 신청이 승인되었습니다.") ∧
    findMembership (approveApplication 3 2 1 sW).1 2 1 = some ⟨1, 2, .APPROVED, .MEMBER⟩ ∧
    approveApplication 3 4 1 sW = (sW, .error (.NotFound "유효하지 않은 가입 신청입니다.")) ∧
    rejectApplication 3 6 1 sW = (sW, .error (.NotFound "유효하지 않은 가입 신청입니다.")) := by
  have h2 := c7_handle_application sW 3 2 1 ⟨1, 3, .APPROVED, .ADMIN⟩ rfl (Or.inl rfl)
  have h4 := c7_handle_application sW 3 4 1 ⟨1, 3, .APPROVED, .ADMIN⟩ rfl (Or.inl rfl)
  have h6 := c7_handle_application sW 3 6 1 ⟨1, 3, .APPROVED, .ADMIN⟩ rfl (Or.inl rfl)
  rcases h2.1 ⟨1, 2, .PENDING, .MEMBER⟩ rfl rfl with ⟨w1, w2, _, _⟩
  exact ⟨w1, w2, (h4.2.2 ⟨1, 4, .REJECTED, .MEMBER⟩ rfl (by decide)).1, (h6.2.1 rfl).2⟩

/-- Claim C8: the current owner of an existing planet can never be removed:
leavePlanet called by the owner fails Forbidden with the store unchanged;
kickMember targeting the owner never succeeds and leaves the store unchanged;
and across any sequence of leave and kick calls the owner's membership row
survives. -/
theorem c8_owner_never_removed :
    (∀ s planetId p, findPlanet s planetId = some p →
      leavePlanet p.ownerId planetId s =
        (s, .error (.Forbidden "행성의 주인은 행성을 탈출할 수 없습니다."))) ∧
    (∀ s planetId p cur, findPlanet s planetId = some p →
      (kickMember cur p.ownerId planetId s).1 = s ∧
      ∀ msg, (kickMember cur p.ownerId planetId s).2 ≠ .ok msg) ∧
    (∀ s ops planetId p m, (∀ op ∈ ops, leaveOrKick op = true) →
      findPlanet s planetId = some p → m ∈ s.memberships → m.planetId = planetId →
      m.userId = p.ownerId → m ∈ (runFrom s ops).memberships) := by
  refine ⟨?_, ?_, ?_⟩
  · intro s planetId p hp
    exact leavePlanet_owner hp rfl
  · intro s planetId p cur hp
    cases hm : findMembership s cur planetId with
    | none =>
      rw [kickMember_noMembership hm]
      exact ⟨rfl, by simp⟩
    | some m =>
      by_cases hr : m.role ≠ PlanetMemberRole.ADMIN ∧ p.ownerId ≠ cur
      · rw [kickMember_forbidden hm hp hr]
        exact ⟨rfl, by simp⟩
      · rw [kickMember_delegate hm hp hr, leavePlanet_owner hp rfl]
        exact ⟨rfl, by simp⟩
  · intro s ops planetId p m hops hp hm h1 h2
    exact (runFrom_leaveKick_keeps hops hp hm h1 h2).2

/-- Witness for C8: owner 1 of the concrete store cannot leave, cannot be
kicked by admin 3, and the OWNER membership survives a kick-and-leave call
sequence. -/
theorem c8_owner_never_removed_witness :
    leavePlanet 1 1 sW = (sW, .error (.Forbidden "행성의 주인은 행성을 탈출할 수 없습니다.")) ∧
    (kickMember 3 1 1 sW).1 = sW ∧
    (⟨1, 1, .APPROVED, .OWNER⟩ : Membership) ∈
      (runFrom sW [.kickMember 3 1 1, .leavePlanet 1 1, .leavePlanet 5 1]).memberships := by
  refine ⟨?_, ?_, ?_⟩
  · exact c8_owner_never_removed.1 sW 1 ⟨1, 1, "terra", true⟩ rfl
  · exact (c8_owner_never_removed.2.1 sW 1 ⟨1, 1, "terra", true⟩ 3 rfl).1
  · exact c8_owner_never_removed.2.2 sW [.kickMember 3 1 1, .leavePlanet 1 1, .leavePlanet 5 1]
      1 ⟨1, 1, "terra", true⟩ ⟨1, 1, .APPROVED, .OWNER⟩ (by decide) rfl (by decide) rfl rfl

/-- Claim C9: transferOwnership by the current owner to a user holding a
membership of any status rewrites only Planet.ownerId: the membership table
and article table are returned unchanged (no promotion of the new owner, no
demotion of the old one, no status change), the planet's row keeps all other
fields, other planets are untouched; a non-owner requester gets Forbidden and
a new owner without membership gets NotFound, both leaving the store
unchanged. -/
theorem c9_transfer_only_ownerId (s : Store) (planetId newOwnerId currentOwnerId : Nat)
    (p : Planet) (hp : findPlanet s planetId = some p) :
    (p.ownerId = currentOwnerId →
      ∀ m, findMembership s newOwnerId planetId = some m →
        (transferOwnership planetId newOwnerId currentOwnerId s).2 = .ok () ∧
        (transferOwnership planetId newOwnerId currentOwnerId s).1.memberships =
          s.memberships ∧
        (transferOwnership planetId newOwnerId currentOwnerId s).1.articles = s.articles ∧
        findPlanet (transferOwnership planetId newOwnerId currentOwnerId s).1 planetId =
          some ⟨p.id, newOwnerId, p.pname, p.published⟩ ∧
        (∀ q ∈ s.planets, q.id ≠ planetId →
          q ∈ (transferOwnership planetId newOwnerId currentOwnerId s).1.planets)) ∧
    (p.ownerId ≠ currentOwnerId →
      transferOwnership planetId newOwnerId currentOwnerId s =
        (s, .error (.Forbidden "행성의 소유권을 이전할 권한이 없습니다."))) ∧
    (p.ownerId = currentOwnerId → findMembership s newOwnerId planetId = none →
      transferOwnership planetId newOwnerId currentOwnerId s =
        (s, .error (.NotFound "새 소유자는 행성의 멤버가 아닙니다."))) := by
  refine ⟨?_, ?_, ?_⟩
  · intro ho m hm
    rw [transferOwnership_success hp ho hm]
    rcases findPlanet_mem hp with ⟨hpmem, hpid⟩
    refine ⟨rfl, rfl, rfl, ?_, ?_⟩
    · rw [findPlanet_map_owner, hp]
      simp [hpid]
    · intro q hq hne
      refine List.mem_map.mpr ⟨q, hq, ?_⟩
      obtain ⟨qid, qo, qn, qp⟩ := q
      simp only [ne_eq] at hne
      simp [hne]
  · intro hno
    exact transferOwnership_forbidden hp hno
  · intro ho hm
    exact transferOwnership_noMembership hp ho hm

/-- Witness for C9: owner 1 transfers planet 1 to the APPROVED member 5;
requester 2 is refused; membership-less user 9 cannot receive ownership. -/
theorem c9_transfer_only_ownerId_witness :
    (transferOwnership 1 5 1 sW).2 = .ok () ∧
    (transferOwnership 1 5 1 sW).1.memberships = sW.memberships ∧
    findPlanet (transferOwnership 1 5 1 sW).1 1 = some ⟨1, 5, "terra", true⟩ ∧
    transferOwnership 1 5 2 sW = (sW, .error (.Forbidden "행성의 소유권을 이전할 권한이 없습니다.")) ∧
    transferOwnership 1 9 1 sW = (sW, .error (.NotFound "새 소유자는 행성의 멤버가 아닙니다.")) := by
  have h5 := c9_transfer_only_ownerId sW 1 5 1 ⟨1, 1, "terra", true⟩ rfl
  have h2 := c9_transfer_only_ownerId sW 1 5 2 ⟨1, 1, "terra", true⟩ rfl
  have h9 := c9_transfer_only_ownerId sW 1 9 1 ⟨1, 1, "terra", true⟩ rfl
  rcases h5.1 rfl ⟨1, 5, .APPROVED, .MEMBER⟩ rfl with ⟨w1, w2, _, w4, _⟩
  exact ⟨w1, w2, w4, h2.2.1 (by decide), h9.2.2 rfl rfl⟩

/-- Claim C10: a non-owner holding a membership of any status — REJECTED
included — in an existing planet can leave, which deletes the membership row,
and can then rejoin: the subsequent joinPlanet succeeds with a fresh
PENDING/MEMBER membership, so the REJECTED state is escapable through the
public interface. -/
theorem c10_leave_and_rejoin (s : Store) (userId planetId : Nat) (p : Planet)
    (m : Membership) (hp : findPlanet s planetId = some p) (how : p.ownerId ≠ userId)
    (hm : findMembership s userId planetId = some m) :
    (leavePlanet userId planetId s).2 = .ok () ∧
    findMembership (leavePlanet userId planetId s).1 userId planetId = none ∧
    (leavePlanet userId planetId s).1.planets = s.planets ∧
    joinPlanet userId planetId (leavePlanet userId planetId s).1 =
      ({ (leavePlanet userId planetId s).1 with memberships :=
          (leavePlanet userId planetId s).1.memberships ++
            [⟨planetId, userId, .PENDING, .MEMBER⟩] },
       .ok .PENDING) := by
  have hleave := leavePlanet_success hp how hm
  have hnone : findMembership (leavePlanet userId planetId s).1 userId planetId = none := by
    rw [hleave]
    unfold findMembership
    rw [List.find?_eq_none]
    intro mm hmm
    have hf := (List.mem_filter.mp hmm).2
    simp only [Bool.not_eq_true'] at hf
    simp [hf]
  have hp1 : findPlanet (leavePlanet userId planetId s).1 planetId = some p :=
    (findPlanet_eq_planets (leavePlanet_planets userId planetId s) planetId).trans hp
  exact ⟨by rw [hleave], hnone, leavePlanet_planets userId planetId s,
    joinPlanet_fresh hnone hp1⟩

/-- Witness for C10: the REJECTED applicant 4 of the concrete store leaves
planet 1 and successfully rejoins with a fresh PENDING membership. -/
theorem c10_leave_and_rejoin_witness :
    (leavePlanet 4 1 sW).2 = .ok () ∧
    findMembership (leavePlanet 4 1 sW).1 4 1 = none ∧
    (leavePlanet 4 1 sW).1.planets = sW.planets ∧
    joinPlanet 4 1 (leavePlanet 4 1 sW).1 =
      ({ (leavePlanet 4 1 sW).1 with memberships :=
          (leavePlanet 4 1 sW).1.memberships ++ [⟨1, 4, .PENDING, .MEMBER⟩] },
       .ok .PENDING) :=
  c10_leave_and_rejoin sW 4 1 ⟨1, 1, "terra", true⟩ ⟨1, 4, .REJECTED, .MEMBER⟩ rfl
    (by decide) rfl

end TravelSpace
